import Mathlib

/-!
Shallow embedding of the nydusd vhost-user-fs backend binary
(`src/bin/nydusd.rs`) together with proofs about its queue processing,
queue-event dispatch, admin control loop, mount closure and process
lifecycle.

External collaborators (guest memory, the fuse message server, the vfs
mount table, epoll, eventfds, the vhost-user transport daemon, the HTTP
admin layer) are modelled by the outcomes of the calls the binary makes
into them, passed as explicit inputs.  Everything the binary itself does
with those outcomes is translated from the source, including the places
where it panics via unwrap / expect / out-of-bounds indexing.
-/

namespace Nydusd

/-- Result of a fallible call, mirroring a Rust `Result` value. -/
inductive Res (ε α : Type) where
  | ok (a : α)
  | err (e : ε)
deriving DecidableEq, Repr

/-- `Result::is_ok` on the model of a Rust result. -/
def Res.isOk {ε α : Type} : Res ε α → Bool
  | .ok _ => true
  | .err _ => false

/-- `QUEUE_SIZE` from the source: depth of each virtqueue and length of the
`used_desc_heads` batch array in `process_queue`. -/
def QUEUE_SIZE : Nat := 1024

/-- `NUM_QUEUES` from the source. -/
def NUM_QUEUES : Nat := 2

/-- `HIPRIO_QUEUE_EVENT` from the source (index of the high priority queue). -/
def HIPRIO_QUEUE_EVENT : Nat := 0

/-- `REQ_QUEUE_EVENT` from the source (index of the request queue). -/
def REQ_QUEUE_EVENT : Nat := 1

/-- `KILL_EVENT` from the source (sentinel index for the exit event). -/
def KILL_EVENT : Nat := 2

/-- The binary's `enum Error`.  Variants that wrap an `io::Error` or fuse
error carry an opaque numeric identity for the wrapped error. -/
inductive Error where
  | HandleEventNotEpollIn
  | HandleEventUnknownEvent
  | NoMemoryConfigured
  | ProcessQueue (e : Nat)
  | Epoll (e : Nat)
  | EventFdClone (e : Nat)
  | ThreadSpawn (e : Nat)
deriving DecidableEq, Repr

/-- Outcome of running a piece of the binary's code that may return a value,
return an `Error`, or panic (unwrap / expect / out-of-bounds indexing). -/
inductive Outcome (α : Type) where
  | ok (a : α)
  | err (e : Error)
  | panic
deriving DecidableEq, Repr

/-- One available descriptor chain, together with the outcomes of the
external calls `process_queue` makes for it: whether `Reader::new` and
`Writer::new` over the chain succeed, and the message server's reply to
`handle_message` (`ok total` = the total byte count it reports, `err` = a
fuse error).  `headIndex` is `avail_desc.index`. -/
structure ChainOutcome where
  headIndex : Nat
  readerOk : Bool
  writerOk : Bool
  serverResult : Res Nat Nat
deriving DecidableEq, Repr

/-- The total the message server reported for a chain (0 for a failed chain;
never consulted on that branch). -/
def serverTotal (c : ChainOutcome) : Nat :=
  match c.serverResult with
  | .ok t => t
  | .err _ => 0

/-- The `while let Some(avail_desc) = ... .iter(&mem).next()` loop of
`process_queue`: walks the available chains in order, panics if
`Reader::new` or `Writer::new` fails (`unwrap`), stops with
`Error::ProcessQueue` if `handle_message` fails (the `?` operator), panics
if the write `used_desc_heads[used_count]` would be out of bounds, and
otherwise records `(head_index, total)` for each chain.  `count` is the
running value of `used_count`. -/
def drainChains : List ChainOutcome → Nat → Outcome (List (Nat × Nat))
  | [], _ => Outcome.ok []
  | c :: rest, count =>
    if c.readerOk then
      if c.writerOk then
        match c.serverResult with
        | Res.err e => Outcome.err (Error.ProcessQueue e)
        | Res.ok total =>
          if count < QUEUE_SIZE then
            match drainChains rest (count + 1) with
            | Outcome.ok tail => Outcome.ok ((c.headIndex, total) :: tail)
            | Outcome.err e => Outcome.err e
            | Outcome.panic => Outcome.panic
          else Outcome.panic
      else Outcome.panic
    else Outcome.panic

/-- What one call of `process_queue` did: its return value (or panic), the
entries it added to the used ring via `add_used` in order, and the number of
times it signalled the used queue. -/
structure DrainResult where
  outcome : Outcome Unit
  used : List (Nat × Nat)
  signals : Nat
deriving DecidableEq, Repr

/-- `VhostUserFsBackend::process_queue`.  `memPresent` is whether `self.mem`
is `Some`, `signalOk` is whether `vring.signal_used_queue()` would succeed
(its failure is an `unwrap` panic in the source), and `chains` are the
currently available descriptor chains with the outcomes of the external
calls made for them.  Note the publishing loop is
`for &(desc_index, _) in &used_desc_heads[..used_count]`
followed by `add_used(&mem, desc_index, 0)`: the recorded totals are
dropped and the byte count written to the used ring is the literal 0. -/
def process_queue (memPresent signalOk : Bool) (chains : List ChainOutcome) :
    DrainResult :=
  if memPresent then
    match drainChains chains 0 with
    | Outcome.ok batch =>
      if 0 < batch.length then
        if signalOk then
          ⟨Outcome.ok (), batch.map (fun p => (p.1, 0)), 1⟩
        else
          ⟨Outcome.panic, batch.map (fun p => (p.1, 0)), 0⟩
      else ⟨Outcome.ok (), [], 0⟩
    | Outcome.err e => ⟨Outcome.err e, [], 0⟩
    | Outcome.panic => ⟨Outcome.panic, [], 0⟩
  else ⟨Outcome.err Error.NoMemoryConfigured, [], 0⟩

/-- The readiness kinds a queue event can carry (`epoll::Events`); the
backend only ever expects `EPOLLIN`. -/
inductive EpollEvents where
  | EPOLLIN
  | EPOLLOUT
  | EPOLLERR
  | EPOLLHUP
deriving DecidableEq, Repr

/-- How `handle_event` turns the result of `self.process_queue(&mut vring)?`
into its own return value: an error propagates, success falls through to
`Ok(false)`. -/
def liftPQ : Outcome Unit → Outcome Bool
  | Outcome.ok _ => Outcome.ok false
  | Outcome.err e => Outcome.err e
  | Outcome.panic => Outcome.panic

/-- `VhostUserFsBackend::handle_event`.  `index` is the queue event index,
`evset` the readiness set, `numVrings` is `vrings.len()`, and `pr i` is the
outcome of `self.process_queue` on vring `i`.  Indexing `vrings[0]` on an
empty slice is a panic, as in the source. -/
def handle_event (index : Nat) (evset : EpollEvents) (numVrings : Nat)
    (pr : Nat → Outcome Unit) : Outcome Bool :=
  if evset = EpollEvents.EPOLLIN then
    if index = HIPRIO_QUEUE_EVENT then
      if numVrings = 0 then Outcome.panic
      else liftPQ (pr HIPRIO_QUEUE_EVENT)
    else
      if REQ_QUEUE_EVENT ≤ index ∧ index < numVrings then liftPQ (pr index)
      else Outcome.err Error.HandleEventUnknownEvent
  else Outcome.err Error.HandleEventNotEpollIn

/-- The `io::ErrorKind` values the binary distinguishes. -/
inductive ErrorKind where
  | Interrupted
  | BrokenPipe
  | InvalidData
  | Other
deriving DecidableEq, Repr

/-- An `io::Error`: its kind plus an opaque numeric identity distinguishing
distinct underlying errors of the same kind. -/
structure IoError where
  kind : ErrorKind
  payload : Nat
deriving DecidableEq, Repr

/-- `io::Error::from(kind)`: a fresh error of the given kind carrying no
underlying payload. -/
def ioErrFrom (k : ErrorKind) : IoError := ⟨k, 0⟩

/-- The `epoll::wait` retry discipline of `ApiServer::control_loop`
(the `match epoll::wait(...)` at the top of the loop): given the sequence of
outcomes successive `epoll::wait` calls would produce, an
`ErrorKind::Interrupted` error makes the loop `continue` straight back into
the wait, any other error is returned from the loop, and a success is
processed.  `none` means the supplied sequence ran out while the loop was
still retrying. -/
def epollWaitLoop : List (Res IoError Nat) → Option (Res IoError Nat)
  | [] => none
  | Res.ok n :: _ => some (Res.ok n)
  | Res.err e :: rest =>
    if e.kind = ErrorKind.Interrupted then epollWaitLoop rest
    else some (Res.err e)

/-- The `DaemonInfo` response body of the admin status query. -/
structure DaemonInfo where
  id : String
  version : String
  state : String
deriving DecidableEq, Repr

/-- `ApiResponsePayload`: the payload of a successful admin reply. -/
inductive ApiResponsePayload where
  | DaemonInfo (d : DaemonInfo)
  | Mount
deriving DecidableEq, Repr

/-- `ApiError`: the error side of an admin reply; `MountFailure` wraps the
`io::Error` it was built from. -/
inductive ApiError where
  | MountFailure (e : IoError)
deriving DecidableEq, Repr

/-- `MountInfo`: the payload of an admin mount request. -/
structure MountInfo where
  source : String
  mountpoint : String
deriving DecidableEq, Repr

/-- An admin request as consumed by the control loop (the reply sender it
carries is modelled separately by `sendOk`). -/
inductive ApiRequest where
  | DaemonInfo
  | Mount (info : MountInfo)
deriving DecidableEq, Repr

/-- What one dispatch step of the control loop did: the reply value handed
to `sender.send`, and the step's own result (`err` terminates the loop by
propagating through the `?` operator). -/
structure ControlStepResult where
  sent : Option (Res ApiError ApiResponsePayload)
  outcome : Res IoError Unit
deriving DecidableEq, Repr

/-- The request dispatch of `ApiServer::control_loop` (the
`match api_request` block): a status query builds
`DaemonInfo { id, version, state: "Running" }` and sends it as a success
payload; a mount request sends whatever the mounter closure returns.  In
both arms a failed `sender.send` is mapped to an
`io::ErrorKind::BrokenPipe` error and returned, terminating the loop. -/
def controlStep (dId dVersion : String) (sendOk : Bool)
    (mounter : MountInfo → Res ApiError ApiResponsePayload)
    (req : ApiRequest) : ControlStepResult :=
  match req with
  | ApiRequest.DaemonInfo =>
    let response : DaemonInfo := ⟨dId, dVersion, "Running"⟩
    let reply := Res.ok (ApiResponsePayload.DaemonInfo response)
    if sendOk then ⟨some reply, Res.ok ()⟩
    else ⟨some reply, Res.err (ioErrFrom ErrorKind.BrokenPipe)⟩
  | ApiRequest.Mount info =>
    let reply := mounter info
    if sendOk then ⟨some reply, Res.ok ()⟩
    else ⟨some reply, Res.err (ioErrFrom ErrorKind.BrokenPipe)⟩

/-- The mount closure passed to `start_api_server` in `main`:
`File::open(&info.source)` and `rafs.import(&mut file)` failures are mapped
through `ApiError::MountFailure`, wrapping the underlying `io::Error`;
a failure of `vfs.mount(rafs, &info.mountpoint)` is logged and replaced by
`ApiError::MountFailure(io::Error::from(io::ErrorKind::InvalidData))` - the
underlying mount error (modelled as an opaque `Nat`) is not embedded. -/
def mountClosure (openR : Res IoError Unit) (importR : Res IoError Unit)
    (mountR : Res Nat Unit) : Res ApiError ApiResponsePayload :=
  match openR with
  | Res.err e => Res.err (ApiError.MountFailure e)
  | Res.ok _ =>
    match importR with
    | Res.err e => Res.err (ApiError.MountFailure e)
    | Res.ok _ =>
      match mountR with
      | Res.ok _ => Res.ok ApiResponsePayload.Mount
      | Res.err _ => Res.err (ApiError.MountFailure (ioErrFrom ErrorKind.InvalidData))

/-- Outcomes of the external calls of the initial-metadata block of `main`
(`File::open(metadata)?`, `rafs.import(&mut file)?`,
`fs.mount(rafs, "/").unwrap()`).  Error identities are opaque numbers. -/
structure MetaEnv where
  openResult : Res Nat Unit
  importResult : Res Nat Unit
  mountRootOk : Bool
deriving DecidableEq, Repr

/-- Outcomes of all the external calls `main` makes, in source order:
the two mandatory CLI arguments (`expect` panics if missing), logger
initialization (`unwrap`), config file merge and deserialization (two
`expect`s), `VhostUserFsBackend::new(vfs).unwrap()`, the optional metadata
block, the optional `start_api_server(...)?` call,
`VhostUserDaemon::new(...).unwrap()`, `daemon.start()`, `daemon.wait()` and
`kill_evt.write(1)`. -/
structure MainEnv where
  configArgGiven : Bool
  sockArgGiven : Bool
  metadataArg : Option MetaEnv
  apisockGiven : Bool
  logInitOk : Bool
  configMergeOk : Bool
  configParseOk : Bool
  backendNewOk : Bool
  apiStart : Res Nat Unit
  daemonNewOk : Bool
  daemonStartOk : Bool
  waitResult : Res Nat Unit
  killWriteOk : Bool
deriving DecidableEq, Repr

/-- How the `main` process ends: `ret r` means `fn main() -> Result<()>`
returned `r` (the runtime then exits 0 for `Ok` and non-zero for `Err`),
`exited c` means `process::exit(c)` ran, `panic` means an
unwrap / expect panicked. -/
inductive MainOutcome where
  | ret (r : Res Nat Unit)
  | exited (code : Nat)
  | panic
deriving DecidableEq, Repr

/-- The process exit code produced by a `MainOutcome` (`none` for a panic):
the Rust runtime exits 0 when `main` returns `Ok` and 1 when it returns
`Err`. -/
def exitCode : MainOutcome → Option Nat
  | MainOutcome.ret (Res.ok _) => some 0
  | MainOutcome.ret (Res.err _) => some 1
  | MainOutcome.exited c => some c
  | MainOutcome.panic => none

/-- The tail of `main` from `VhostUserDaemon::new` on: `new(...).unwrap()`
panics on failure, a `daemon.start()` error runs `process::exit(1)`, a
`daemon.wait()` error is only logged, a `kill_evt.write(1)` error is only
logged, and `main` then returns `Ok(())`. -/
def mainDaemon (env : MainEnv) : MainOutcome :=
  if env.daemonNewOk then
    if env.daemonStartOk then MainOutcome.ret (Res.ok ())
    else MainOutcome.exited 1
  else MainOutcome.panic

/-- The `if apisock != ""` block of `main`: a `start_api_server(...)?`
failure returns the error from `main`. -/
def mainAfterMount (env : MainEnv) : MainOutcome :=
  if env.apisockGiven then
    match env.apiStart with
    | Res.err e => MainOutcome.ret (Res.err e)
    | Res.ok _ => mainDaemon env
  else mainDaemon env

/-- `main`, over the outcomes of its external calls.  The `expect` and
`unwrap` calls of the prologue panic on failure; in the
`if metadata != ""` block `File::open(metadata)?` and
`rafs.import(&mut file)?` return their error from `main`, while
`fs.mount(rafs, "/").unwrap()` panics on failure. -/
def mainRun (env : MainEnv) : MainOutcome :=
  if env.configArgGiven then
    if env.sockArgGiven then
      if env.logInitOk then
        if env.configMergeOk then
          if env.configParseOk then
            if env.backendNewOk then
              match env.metadataArg with
              | some m =>
                match m.openResult with
                | Res.err e => MainOutcome.ret (Res.err e)
                | Res.ok _ =>
                  match m.importResult with
                  | Res.err e => MainOutcome.ret (Res.err e)
                  | Res.ok _ =>
                    if m.mountRootOk then mainAfterMount env
                    else MainOutcome.panic
              | none => mainAfterMount env
            else MainOutcome.panic
          else MainOutcome.panic
        else MainOutcome.panic
      else MainOutcome.panic
    else MainOutcome.panic
  else MainOutcome.panic

/-- A `MainEnv` in which every startup step that would panic succeeds;
the remaining outcomes are the arguments. -/
def mkEnv (meta : Option MetaEnv) (apiGiven : Bool) (api : Res Nat Unit)
    (dStart : Bool) (wait : Res Nat Unit) (kill : Bool) : MainEnv :=
  ⟨true, true, meta, apiGiven, true, true, true, true, api, true, dStart, wait, kill⟩

/-- Whether the optional initial-metadata block runs to completion. -/
def metaRes : Option MetaEnv → Bool
  | none => true
  | some m => m.openResult.isOk && m.importResult.isOk && m.mountRootOk

/-- When every chain's reader and writer construction and message-server
call succeed and the batch array is never overrun, the drain loop records
one `(head_index, total)` pair per chain, in order. -/
theorem drainChains_ok :
    ∀ (chains : List ChainOutcome) (count : Nat),
      (∀ c ∈ chains,
        c.readerOk = true ∧ c.writerOk = true ∧ c.serverResult.isOk = true) →
      count + chains.length ≤ QUEUE_SIZE →
      drainChains chains count
        = Outcome.ok (chains.map (fun c => (c.headIndex, serverTotal c))) := by
  intro chains
  induction chains with
  | nil => intro count hall hlen; simp [drainChains]
  | cons c rest ih =>
    intro count hall hlen
    obtain ⟨hr, hw, hs⟩ := hall c (List.mem_cons_self c rest)
    have hcount : count < QUEUE_SIZE := by
      simp only [List.length_cons] at hlen; omega
    have hlen2 : (count + 1) + rest.length ≤ QUEUE_SIZE := by
      simp only [List.length_cons] at hlen; omega
    have hrec := ih (count + 1) (fun x hx => hall x (List.mem_cons_of_mem c hx)) hlen2
    cases hsr : c.serverResult with
    | err e =>
      rw [hsr] at hs
      simp [Res.isOk] at hs
    | ok t =>
      simp [drainChains, hr, hw, hsr, hcount, hrec, serverTotal]

/-- The only error the drain loop can produce is `Error::ProcessQueue`. -/
theorem drainChains_err :
    ∀ (chains : List ChainOutcome) (count : Nat) (e : Error),
      drainChains chains count = Outcome.err e →
      ∃ k, e = Error.ProcessQueue k := by
  intro chains
  induction chains with
  | nil => intro count e h; simp [drainChains] at h
  | cons c rest ih =>
    intro count e h
    by_cases hr : c.readerOk
    · by_cases hw : c.writerOk
      · cases hsr : c.serverResult with
        | err k =>
          simp [drainChains, hr, hw, hsr] at h
          exact ⟨k, h.symm⟩
        | ok t =>
          by_cases hcount : count < QUEUE_SIZE
          · cases hrec : drainChains rest (count + 1) with
            | ok tail => simp [drainChains, hr, hw, hsr, hcount, hrec] at h
            | err e2 =>
              simp [drainChains, hr, hw, hsr, hcount, hrec] at h
              subst h
              exact ih (count + 1) e2 hrec
            | panic => simp [drainChains, hr, hw, hsr, hcount, hrec] at h
          · simp [drainChains, hr, hw, hsr, hcount] at h
      · simp [drainChains, hr, hw] at h
    · simp [drainChains, hr] at h

/-- A successful drain records exactly one batch entry per available chain. -/
theorem drainChains_ok_length :
    ∀ (chains : List ChainOutcome) (count : Nat) (batch : List (Nat × Nat)),
      drainChains chains count = Outcome.ok batch →
      batch.length = chains.length := by
  intro chains
  induction chains with
  | nil =>
    intro count batch h
    simp [drainChains] at h
    simp [← h]
  | cons c rest ih =>
    intro count batch h
    by_cases hr : c.readerOk
    · by_cases hw : c.writerOk
      · cases hsr : c.serverResult with
        | err k => simp [drainChains, hr, hw, hsr] at h
        | ok t =>
          by_cases hcount : count < QUEUE_SIZE
          · cases hrec : drainChains rest (count + 1) with
            | ok tail =>
              simp [drainChains, hr, hw, hsr, hcount, hrec] at h
              have := ih (count + 1) tail hrec
              simp [← h, List.length_cons, this]
            | err e2 => simp [drainChains, hr, hw, hsr, hcount, hrec] at h
            | panic => simp [drainChains, hr, hw, hsr, hcount, hrec] at h
          · simp [drainChains, hr, hw, hsr, hcount] at h
      · simp [drainChains, hr, hw] at h
    · simp [drainChains, hr] at h

/-- If some prefix of the available chains is processed successfully and the
next chain's reader or writer construction fails, the drain loop panics. -/
theorem drainChains_panic_at :
    ∀ (pre : List ChainOutcome) (c : ChainOutcome) (rest : List ChainOutcome)
      (count : Nat),
      (∀ x ∈ pre,
        x.readerOk = true ∧ x.writerOk = true ∧ x.serverResult.isOk = true) →
      count + pre.length ≤ QUEUE_SIZE →
      (c.readerOk = false ∨ c.writerOk = false) →
      drainChains (pre ++ c :: rest) count = Outcome.panic := by
  intro pre
  induction pre with
  | nil =>
    intro c rest count hall hlen hc
    rcases hc with hc | hc
    · simp [drainChains, hc]
    · by_cases hr : c.readerOk
      · simp [drainChains, hr, hc]
      · simp [drainChains, hr]
  | cons p pre2 ih =>
    intro c rest count hall hlen hc
    obtain ⟨hr, hw, hs⟩ := hall p (List.mem_cons_self p pre2)
    have hcount : count < QUEUE_SIZE := by
      simp only [List.length_cons] at hlen; omega
    have hlen2 : (count + 1) + pre2.length ≤ QUEUE_SIZE := by
      simp only [List.length_cons] at hlen; omega
    have hrec := ih c rest (count + 1)
        (fun x hx => hall x (List.mem_cons_of_mem p hx)) hlen2 hc
    cases hsr : p.serverResult with
    | err k =>
      rw [hsr] at hs
      simp [Res.isOk] at hs
    | ok t =>
      simp [drainChains, List.cons_append, hr, hw, hsr, hcount, hrec]

/-- C1, counterexample: a drain call consuming a single chain whose message
server reports a total of 5 bytes publishes the used entry `(7, 0)`, not
`(7, 5)`: the byte count in the published entry is not the total the
message server reported. -/
theorem C1_counterexample :
    (process_queue true true [⟨7, true, true, Res.ok 5⟩]).used = [(7, 0)]
    ∧ (process_queue true true [⟨7, true, true, Res.ok 5⟩]).used ≠ [(7, 5)] := by
  decide

/-- C1, amended: a drain call over chains that all process successfully
returns `Ok` and publishes exactly one used entry per consumed chain, in
consumption order, but every published byte count is 0: the publishing loop
destructures the recorded pairs as `&(desc_index, _)` and calls
`add_used(&mem, desc_index, 0)`, discarding the totals the message server
reported. -/
theorem C1_amended_thm (chains : List ChainOutcome)
    (hall : ∀ c ∈ chains,
      c.readerOk = true ∧ c.writerOk = true ∧ c.serverResult.isOk = true)
    (hlen : chains.length ≤ QUEUE_SIZE) :
    (process_queue true true chains).outcome = Outcome.ok ()
    ∧ (process_queue true true chains).used
        = chains.map (fun c => (c.headIndex, 0)) := by
  have hd := drainChains_ok chains 0 hall (by omega)
  cases chains with
  | nil =>
    constructor <;> simp [process_queue, drainChains]
  | cons c rest =>
    constructor <;> simp [process_queue, hd, List.map_map, Function.comp]

/-- Witness for `C1_amended_thm` at a concrete two-chain batch. -/
theorem C1_amended_witness :
    (process_queue true true
        [⟨2, true, true, Res.ok 9⟩, ⟨4, true, true, Res.ok 11⟩]).outcome
      = Outcome.ok ()
    ∧ (process_queue true true
        [⟨2, true, true, Res.ok 9⟩, ⟨4, true, true, Res.ok 11⟩]).used
      = [(2, 0), (4, 0)] := by
  have h := C1_amended_thm
      [⟨2, true, true, Res.ok 9⟩, ⟨4, true, true, Res.ok 11⟩]
      (by decide) (by decide)
  exact ⟨h.1, by rw [h.2]; decide⟩

/-- C2, evaluation at the failing input: with the memory table installed and
two available chains - the first (head 3) handled successfully with total 4,
the second (head 5) failing in the message server with error 9 - the drain
call publishes no used entries at all and surfaces the error: the `?` on
`handle_message` returns before the publishing block, discarding the entry
already recorded for the first chain. -/
theorem C2_code_bug_eval :
    (process_queue true true
        [⟨3, true, true, Res.ok 4⟩, ⟨5, true, true, Res.err 9⟩]).used = []
    ∧ (process_queue true true
        [⟨3, true, true, Res.ok 4⟩, ⟨5, true, true, Res.err 9⟩]).outcome
      = Outcome.err (Error.ProcessQueue 9) := by
  decide

/-- C3: when signalling would succeed, a drain call signals the used queue
at most once; it signals zero times when it published no used entries, and
exactly once when it published at least one; in particular a successful
drain over a non-empty set of available chains signals exactly once. -/
theorem C3_thm (memPresent signalOk : Bool) (chains : List ChainOutcome)
    (hsig : signalOk = true) :
    (process_queue memPresent signalOk chains).signals ≤ 1
    ∧ ((process_queue memPresent signalOk chains).used = [] →
        (process_queue memPresent signalOk chains).signals = 0)
    ∧ ((process_queue memPresent signalOk chains).used ≠ [] →
        (process_queue memPresent signalOk chains).signals = 1)
    ∧ ((process_queue memPresent signalOk chains).outcome = Outcome.ok () →
        chains ≠ [] →
        (process_queue memPresent signalOk chains).signals = 1) := by
  subst hsig
  cases memPresent with
  | false => simp [process_queue]
  | true =>
    cases hd : drainChains chains 0 with
    | err e => simp [process_queue, hd]
    | panic => simp [process_queue, hd]
    | ok batch =>
      by_cases hb : 0 < batch.length
      · have hbne : batch.map (fun p => (p.1, 0)) ≠ [] := by
          cases batch with
          | nil => simp at hb
          | cons a l => simp
        simp [process_queue, hd, hb, hbne]
      · have hb0 : batch = [] := by
          cases batch with
          | nil => rfl
          | cons a l => simp at hb
        subst hb0
        have hlen := drainChains_ok_length chains 0 [] hd
        refine ⟨by simp [process_queue, hd], by simp [process_queue, hd],
            by simp [process_queue, hd], ?_⟩
        intro hok hne
        exfalso
        apply hne
        cases chains with
        | nil => rfl
        | cons c r => simp at hlen

/-- Witness for `C3_thm`: a successful one-chain drain signals exactly once. -/
theorem C3_witness :
    (process_queue true true [⟨1, true, true, Res.ok 2⟩]).signals = 1 :=
  (C3_thm true true [⟨1, true, true, Res.ok 2⟩] rfl).2.2.1 (by decide)

/-- C9: `process_queue` can only return an error for a missing memory table
or a message-server failure; a failed `Reader::new` or `Writer::new`
(after any successfully processed prefix) makes it panic instead of
returning, and so does a failed `signal_used_queue` after a successful
non-empty drain. -/
theorem C9_thm :
    (∀ (memPresent signalOk : Bool) (chains : List ChainOutcome) (e : Error),
        (process_queue memPresent signalOk chains).outcome = Outcome.err e →
        e = Error.NoMemoryConfigured ∨ ∃ k, e = Error.ProcessQueue k)
    ∧ (∀ (signalOk : Bool) (pre : List ChainOutcome) (c : ChainOutcome)
          (rest : List ChainOutcome),
        (∀ x ∈ pre,
          x.readerOk = true ∧ x.writerOk = true ∧ x.serverResult.isOk = true) →
        pre.length ≤ QUEUE_SIZE →
        (c.readerOk = false ∨ c.writerOk = false) →
        (process_queue true signalOk (pre ++ c :: rest)).outcome
          = Outcome.panic)
    ∧ (∀ (chains : List ChainOutcome),
        (∀ x ∈ chains,
          x.readerOk = true ∧ x.writerOk = true ∧ x.serverResult.isOk = true) →
        chains.length ≤ QUEUE_SIZE → chains ≠ [] →
        (process_queue true false chains).outcome = Outcome.panic) := by
  refine ⟨?_, ?_, ?_⟩
  · intro memPresent signalOk chains e h
    cases memPresent with
    | false =>
      simp [process_queue] at h
      exact Or.inl h.symm
    | true =>
      cases hd : drainChains chains 0 with
      | err e2 =>
        simp [process_queue, hd] at h
        subst h
        exact Or.inr (drainChains_err chains 0 e2 hd)
      | panic => simp [process_queue, hd] at h
      | ok batch =>
        by_cases hb : 0 < batch.length
        · cases signalOk <;> simp [process_queue, hd, hb] at h
        · simp [process_queue, hd, hb] at h
  · intro signalOk pre c rest hall hlen hc
    have hd := drainChains_panic_at pre c rest 0 hall (by omega) hc
    simp [process_queue, hd]
  · intro chains hall hlen hne
    have hd := drainChains_ok chains 0 hall (by omega)
    have hb : 0 < chains.length := by
      cases chains with
      | nil => exact absurd rfl hne
      | cons a l => simp
    simp [process_queue, hd, hb]

/-- Witness for `C9_thm`: a failing `Reader::new` on the only available
chain makes `process_queue` panic. -/
theorem C9_witness :
    (process_queue true true [⟨1, false, true, Res.ok 0⟩]).outcome
      = Outcome.panic :=
  C9_thm.2.1 true [] ⟨1, false, true, Res.ok 0⟩ []
      (by decide) (by decide) (Or.inl rfl)

/-- A propagated `process_queue` result yields `Ok(false)` on success and
never `Ok(true)`. -/
theorem liftPQ_ok_false :
    ∀ (x : Outcome Unit) (b : Bool), liftPQ x = Outcome.ok b → b = false := by
  intro x b h
  cases x with
  | ok a => simp [liftPQ] at h; exact h
  | err e => simp [liftPQ] at h
  | panic => simp [liftPQ] at h

/-- C4: `handle_event` rejects any readiness set other than `EPOLLIN` with
`HandleEventNotEpollIn`; on `EPOLLIN` it dispatches index 0 to
`process_queue` on the high priority queue, any index from 1 up to
(exclusive) the number of vrings to `process_queue` on that vring, and
rejects any other index with `HandleEventUnknownEvent`; every successful
return is `Ok(false)`. -/
theorem C4_thm (index : Nat) (evset : EpollEvents) (numVrings : Nat)
    (pr : Nat → Outcome Unit) (hq : 0 < numVrings) :
    (evset ≠ EpollEvents.EPOLLIN →
        handle_event index evset numVrings pr
          = Outcome.err Error.HandleEventNotEpollIn)
    ∧ (evset = EpollEvents.EPOLLIN → index = HIPRIO_QUEUE_EVENT →
        handle_event index evset numVrings pr
          = liftPQ (pr HIPRIO_QUEUE_EVENT))
    ∧ (evset = EpollEvents.EPOLLIN → REQ_QUEUE_EVENT ≤ index →
        index < numVrings →
        handle_event index evset numVrings pr = liftPQ (pr index))
    ∧ (evset = EpollEvents.EPOLLIN → REQ_QUEUE_EVENT ≤ index →
        numVrings ≤ index →
        handle_event index evset numVrings pr
          = Outcome.err Error.HandleEventUnknownEvent)
    ∧ (∀ b, handle_event index evset numVrings pr = Outcome.ok b →
        b = false) := by
  refine ⟨?_, ?_, ?_, ?_, ?_⟩
  · intro hne
    simp [handle_event, hne]
  · intro he hi
    subst he
    subst hi
    have hz : numVrings ≠ 0 := by omega
    simp [handle_event, HIPRIO_QUEUE_EVENT, hz]
  · intro he h1 h2
    subst he
    have hi0 : index ≠ HIPRIO_QUEUE_EVENT := by
      simp only [REQ_QUEUE_EVENT] at h1
      simp only [HIPRIO_QUEUE_EVENT]
      omega
    simp [handle_event, hi0, h1, h2]
  · intro he h1 h2
    subst he
    have hi0 : index ≠ HIPRIO_QUEUE_EVENT := by
      simp only [REQ_QUEUE_EVENT] at h1
      simp only [HIPRIO_QUEUE_EVENT]
      omega
    have hno : ¬ (REQ_QUEUE_EVENT ≤ index ∧ index < numVrings) := by
      intro hcontra
      obtain ⟨ha, hb⟩ := hcontra
      omega
    simp [handle_event, hi0, hno]
  · intro b h
    by_cases he : evset = EpollEvents.EPOLLIN
    · subst he
      by_cases hi : index = HIPRIO_QUEUE_EVENT
      · by_cases hz : numVrings = 0
        · simp [handle_event, hi, hz] at h
        · exact liftPQ_ok_false (pr HIPRIO_QUEUE_EVENT) b
            (by simpa [handle_event, hi, hz] using h)
      · by_cases hreq : REQ_QUEUE_EVENT ≤ index ∧ index < numVrings
        · exact liftPQ_ok_false (pr index) b
            (by simpa [handle_event, hi, hreq] using h)
        · simp [handle_event, hi, hreq] at h
    · simp [handle_event, he] at h

/-- Witness for `C4_thm`: index 1 on an `EPOLLIN` readiness with two vrings
and a successful `process_queue` returns `Ok(false)`. -/
theorem C4_witness :
    handle_event 1 EpollEvents.EPOLLIN 2 (fun _ => Outcome.ok ())
      = Outcome.ok false := by
  have h := (C4_thm 1 EpollEvents.EPOLLIN 2 (fun _ => Outcome.ok ())
      (by decide)).2.2.1 rfl (by decide) (by decide)
  simpa [liftPQ] using h

/-- C6, counterexample: two distinct underlying mount errors produce the
very same failure reply, and that reply is
`MountFailure(io::Error::from(InvalidData))`: the reply for the third
failure point (mounting at the mountpoint) does not embed the underlying
mount error. -/
theorem C6_counterexample :
    mountClosure (Res.ok ()) (Res.ok ()) (Res.err 7)
      = mountClosure (Res.ok ()) (Res.ok ()) (Res.err 8)
    ∧ mountClosure (Res.ok ()) (Res.ok ()) (Res.err 7)
      = Res.err (ApiError.MountFailure ⟨ErrorKind.InvalidData, 0⟩) := by
  exact ⟨rfl, rfl⟩

/-- C6, amended: the failure reply of the admin mount closure wraps the
underlying error for the first two failure points (opening the source file
and importing it); a failure of the mount itself is replied as
`MountFailure` wrapping a fresh `InvalidData` error, the underlying mount
error being logged but not embedded. -/
theorem C6_amended_thm :
    (∀ (e : IoError) (i : Res IoError Unit) (m : Res Nat Unit),
        mountClosure (Res.err e) i m = Res.err (ApiError.MountFailure e))
    ∧ (∀ (e : IoError) (m : Res Nat Unit),
        mountClosure (Res.ok ()) (Res.err e) m
          = Res.err (ApiError.MountFailure e))
    ∧ (∀ (k : Nat),
        mountClosure (Res.ok ()) (Res.ok ()) (Res.err k)
          = Res.err (ApiError.MountFailure (ioErrFrom ErrorKind.InvalidData))) :=
  ⟨fun _ _ _ => rfl, fun _ _ => rfl, fun _ => rfl⟩

/-- C7: for every status query the control loop dispatches, the reply handed
to the sender is the success payload
`DaemonInfo { id, version, state: "Running" }`, and the step's outcome is
success when the send succeeds and a broken-pipe error - terminating the
loop - when the send fails. -/
theorem C7_thm (dId dVersion : String) (sendOk : Bool)
    (mounter : MountInfo → Res ApiError ApiResponsePayload) :
    (controlStep dId dVersion sendOk mounter ApiRequest.DaemonInfo).sent
      = some (Res.ok (ApiResponsePayload.DaemonInfo ⟨dId, dVersion, "Running"⟩))
    ∧ (controlStep dId dVersion sendOk mounter ApiRequest.DaemonInfo).outcome
      = (if sendOk then Res.ok ()
         else Res.err (ioErrFrom ErrorKind.BrokenPipe)) := by
  cases sendOk <;> simp [controlStep]

/-- C8: an `Interrupted` outcome of `epoll::wait` makes the control loop
retry the wait transparently; any other error is returned immediately; and
no value the wait loop ever returns is an `Interrupted` error. -/
theorem C8_thm (e : IoError) (rest : List (Res IoError Nat)) :
    (e.kind = ErrorKind.Interrupted →
        epollWaitLoop (Res.err e :: rest) = epollWaitLoop rest)
    ∧ (e.kind ≠ ErrorKind.Interrupted →
        epollWaitLoop (Res.err e :: rest) = some (Res.err e))
    ∧ (∀ (l : List (Res IoError Nat)) (e2 : IoError),
        epollWaitLoop l = some (Res.err e2) →
        e2.kind ≠ ErrorKind.Interrupted) := by
  refine ⟨?_, ?_, ?_⟩
  · intro h
    simp [epollWaitLoop, h]
  · intro h
    simp [epollWaitLoop, h]
  · intro l
    induction l with
    | nil =>
      intro e2 h
      simp [epollWaitLoop] at h
    | cons r rest2 ih =>
      intro e2 h
      cases r with
      | ok n => simp [epollWaitLoop] at h
      | err e3 =>
        by_cases hk : e3.kind = ErrorKind.Interrupted
        · simp [epollWaitLoop, hk] at h
          exact ih e2 h
        · simp [epollWaitLoop, hk] at h
          subst h
          exact hk

/-- Witness for `C8_thm`: an interrupted wait followed by a ready event
resolves to the event, and a non-interrupted error surfaces directly. -/
theorem C8_witness :
    epollWaitLoop [Res.err ⟨ErrorKind.Interrupted, 0⟩, Res.ok 3]
      = epollWaitLoop [Res.ok 3]
    ∧ epollWaitLoop [Res.err ⟨ErrorKind.Other, 0⟩]
      = some (Res.err ⟨ErrorKind.Other, 0⟩) :=
  ⟨(C8_thm ⟨ErrorKind.Interrupted, 0⟩ [Res.ok 3]).1 rfl,
   (C8_thm ⟨ErrorKind.Other, 0⟩ []).2.1 (by decide)⟩

/-- When the optional initial-metadata block runs to completion, `main`
falls through to the admin-server block. -/
theorem mainRun_mkEnv_meta (meta : Option MetaEnv) (apiGiven : Bool)
    (api : Res Nat Unit) (dStart : Bool) (wait : Res Nat Unit) (kill : Bool)
    (hmeta : metaRes meta = true) :
    mainRun (mkEnv meta apiGiven api dStart wait kill)
      = mainAfterMount (mkEnv meta apiGiven api dStart wait kill) := by
  cases meta with
  | none => simp [mainRun, mkEnv]
  | some m =>
    simp [metaRes, Bool.and_eq_true] at hmeta
    obtain ⟨⟨ho, hi⟩, hm⟩ := hmeta
    cases hor : m.openResult with
    | err e0 => rw [hor] at ho; simp [Res.isOk] at ho
    | ok u =>
      cases hir : m.importResult with
      | err e0 => rw [hir] at hi; simp [Res.isOk] at hi
      | ok v => simp [mainRun, mkEnv, hor, hir, hm]

/-- C5, counterexample: with a fully successful startup and a transport
daemon whose `wait` reports an error, `main` still returns `Ok(())` - the
wait error is only logged - so the process exit code is 0, not non-zero as
the claim states. -/
theorem C5_counterexample :
    exitCode (mainRun (mkEnv (some ⟨Res.ok (), Res.ok (), true⟩) true
        (Res.ok ()) true (Res.err 3) true)) = some 0 := by
  decide

/-- C5, amended: the process exits 0 on clean shutdown and also when only
the daemon's `wait` reports an error (that error is logged and discarded);
it exits non-zero when the transport daemon fails to start
(`process::exit(1)`), and when startup fails: opening or importing the
initial metadata image, or starting the admin api server, each of which
returns the error from `main`. -/
theorem C5_amended_thm :
    (∀ (meta : Option MetaEnv) (apiGiven dStart kill : Bool)
        (api wait : Res Nat Unit),
        metaRes meta = true → (apiGiven = true → api = Res.ok ()) →
        exitCode (mainRun (mkEnv meta apiGiven api dStart wait kill))
          = some (if dStart then 0 else 1))
    ∧ (∀ (m : MetaEnv) (apiGiven dStart kill : Bool)
        (api wait : Res Nat Unit) (e : Nat),
        m.openResult = Res.err e →
        exitCode (mainRun (mkEnv (some m) apiGiven api dStart wait kill))
          = some 1)
    ∧ (∀ (m : MetaEnv) (apiGiven dStart kill : Bool)
        (api wait : Res Nat Unit) (e : Nat),
        m.openResult = Res.ok () → m.importResult = Res.err e →
        exitCode (mainRun (mkEnv (some m) apiGiven api dStart wait kill))
          = some 1)
    ∧ (∀ (meta : Option MetaEnv) (dStart kill : Bool) (wait : Res Nat Unit)
        (e : Nat),
        metaRes meta = true →
        exitCode (mainRun (mkEnv meta true (Res.err e) dStart wait kill))
          = some 1) := by
  refine ⟨?_, ?_, ?_, ?_⟩
  · intro meta apiGiven dStart kill api wait hmeta hapi
    rw [mainRun_mkEnv_meta meta apiGiven api dStart wait kill hmeta]
    cases apiGiven with
    | false =>
      cases dStart <;> simp [mainAfterMount, mainDaemon, mkEnv, exitCode]
    | true =>
      have ha := hapi rfl
      subst ha
      cases dStart <;> simp [mainAfterMount, mainDaemon, mkEnv, exitCode]
  · intro m apiGiven dStart kill api wait e he
    simp [mainRun, mkEnv, he, exitCode]
  · intro m apiGiven dStart kill api wait e ho hi
    simp [mainRun, mkEnv, ho, hi, exitCode]
  · intro meta dStart kill wait e hmeta
    rw [mainRun_mkEnv_meta meta true (Res.err e) dStart wait kill hmeta]
    simp [mainAfterMount, mkEnv, exitCode]

/-- Witness for `C5_amended_thm`: clean startup, failing daemon wait, exit
code 0. -/
theorem C5_amended_witness :
    exitCode (mainRun (mkEnv (some ⟨Res.ok (), Res.ok (), true⟩) true
        (Res.ok ()) true (Res.err 7) true)) = some (if true then 0 else 1) :=
  C5_amended_thm.1 (some ⟨Res.ok (), Res.ok (), true⟩) true true true
      (Res.ok ()) (Res.err 7) (by decide) (fun _ => rfl)

/-- C10: with an initial metadata image supplied, a failure to open the
image or to import it is returned as an error from `main` (non-zero process
exit), while a failure of the subsequent mount of the imported filesystem
at the root is a panic of the `unwrap` on `fs.mount(rafs, "/")`. -/
theorem C10_thm (m : MetaEnv) (apiGiven dStart kill : Bool)
    (api wait : Res Nat Unit) :
    (∀ e, m.openResult = Res.err e →
        mainRun (mkEnv (some m) apiGiven api dStart wait kill)
          = MainOutcome.ret (Res.err e))
    ∧ (∀ e, m.openResult = Res.ok () → m.importResult = Res.err e →
        mainRun (mkEnv (some m) apiGiven api dStart wait kill)
          = MainOutcome.ret (Res.err e))
    ∧ (m.openResult = Res.ok () → m.importResult = Res.ok () →
        m.mountRootOk = false →
        mainRun (mkEnv (some m) apiGiven api dStart wait kill)
          = MainOutcome.panic) := by
  refine ⟨?_, ?_, ?_⟩
  · intro e he
    simp [mainRun, mkEnv, he]
  · intro e ho hi
    simp [mainRun, mkEnv, ho, hi]
  · intro ho hi hm
    simp [mainRun, mkEnv, ho, hi, hm]

/-- Witness for `C10_thm`: open and import succeed, the root mount fails,
and `main` panics. -/
theorem C10_witness :
    mainRun (mkEnv (some ⟨Res.ok (), Res.ok (), false⟩) false (Res.ok ())
        true (Res.ok ()) true) = MainOutcome.panic :=
  (C10_thm ⟨Res.ok (), Res.ok (), false⟩ false true true (Res.ok ())
      (Res.ok ())).2.2 rfl rfl rfl

end Nydusd
